import Mathlib

/-!
Shallow embedding of the deliberation service's two core state machines:

* the participant conversation engine
  (`chatbot_site/core/services/conversation_service.py`,
  `UserConversationService.process_user_message`, together with the
  `UserConversation` model helpers it calls), and
* the AI debate orchestrator
  (`chatbot_site/core/services/ai_deliberation_service.py`,
  `AIDeliberationService.run_deliberation` and its helpers).

Python strings become `String`, JSON lists become `List`, machine-independent
Python ints become `Nat` (all the counters involved are non-negative model
fields), and the black-box OpenAI gateway becomes an explicit oracle argument.
Database persistence (`save()`, timestamps) is omitted: every theorem below is
about the in-memory state the service computes before saving it.
-/

namespace Deliberation

/-- Python `str.strip()` (no-argument form): drop whitespace from both
ends.  Implemented over the character list so that it reduces inside the
kernel (core's `String.trim` is byte-position recursion and does not). -/
def pyStrip (s : String) : String :=
  String.mk (((s.data.dropWhile Char.isWhitespace).reverse.dropWhile Char.isWhitespace).reverse)

/-- Python `str.rstrip()` / Lean's `String.trimRight`. -/
def pyRStrip (s : String) : String :=
  String.mk ((s.data.reverse.dropWhile Char.isWhitespace).reverse)

/-- Python `str.lower()` (over the characters). -/
def pyLower (s : String) : String :=
  String.mk (s.data.map Char.toLower)

/-- Python `s[:n]` on a string. -/
def strTake (s : String) (n : Nat) : String :=
  String.mk (s.data.take n)

/-- A chat message as passed to the text-generation gateway:
`{"role": ..., "content": ...}`. -/
structure ChatMsg where
  role : String
  content : String
deriving DecidableEq, Inhabited

/-- `TOKENS_PER_CHAR = 0.25`, `MAX_TOKENS_PER_REQUEST = 8000`
(`conversation_service.py` lines 32-33). -/
def maxTokensPerRequest : Nat := 8000

/-- `estimate_tokens(text) = max(1, int(len(text) * 0.25))`
(`conversation_service.py` lines 36-38).  Multiplying a Python `int` by the
float `0.25` is exact and `int(...)` truncates, so the result is `len // 4`. -/
def estimateTokens (text : String) : Nat :=
  max 1 (text.length / 4)

/-- `sum(estimate_tokens(m.get("content", "")) for m in messages)`. -/
def tokenSum (msgs : List ChatMsg) : Nat :=
  (msgs.map (fun m => estimateTokens m.content)).sum

/-! ### Question plan (`DiscussionSession.get_all_questions`, `models.py`) -/

/-- One raw entry of `session.objective_questions`: either a
`{"text": ..., "type": ...}` dict or a legacy plain string. -/
inductive RawQuestion where
  | dict (text : String) (qtype : String)
  | str (s : String)
deriving DecidableEq

/-- A cleaned question as returned by `get_all_questions`:
`{"text": ..., "type": "grading"|"discussion"}`. -/
structure Question where
  text : String
  qtype : String
deriving DecidableEq

/-- `DiscussionSession.get_all_questions` (`models.py` lines 83-102):
strip each entry's text, normalise the type (anything other than
`"grading"`/`"discussion"` becomes `"discussion"`), and drop entries whose
stripped text is empty.  Legacy string entries become discussion questions. -/
def getAllQuestions : List RawQuestion → List Question
  | [] => []
  | RawQuestion.dict text qtype :: rest =>
      let t := pyStrip text
      let ty := pyLower (pyStrip qtype)
      let ty := if ty = "grading" ∨ ty = "discussion" then ty else "discussion"
      if t = "" then getAllQuestions rest
      else ⟨t, ty⟩ :: getAllQuestions rest
  | RawQuestion.str s :: rest =>
      let c := pyStrip s
      if c = "" then getAllQuestions rest
      else ⟨c, "discussion"⟩ :: getAllQuestions rest

/-! ### Conversation state (`UserConversation`, `models.py` lines 180-258) -/

/-- One stored entry of `UserConversation.responses`
(`set_response_for_question`). -/
structure QResponse where
  questionIndex : Nat
  questionText : String
  questionType : String
  score : Option Nat
  reason : Option String
  discussionHistory : List ChatMsg
deriving DecidableEq

/-- The mutable per-participant fields of `UserConversation` that
`process_user_message` reads and writes. -/
structure ConvState where
  history : List ChatMsg
  responses : List QResponse
  scratchpad : String
  viewsMarkdown : String
  messageCount : Nat
  consecutiveNoNew : Nat
  active : Bool
  currentQuestionIndex : Nat
  questionFollowups : Nat
deriving DecidableEq

/-- Model defaults of a freshly created `UserConversation`
(`models.py` lines 181-190). -/
def freshConvState : ConvState :=
  { history := []
    responses := []
    scratchpad := ""
    viewsMarkdown := ""
    messageCount := 0
    consecutiveNoNew := 0
    active := true
    currentQuestionIndex := 0
    questionFollowups := 0 }

/-- `UserConversation.append_message` (`models.py` lines 203-208). -/
def appendMessage (st : ConvState) (role content : String) : ConvState :=
  { st with history := st.history ++ [⟨role, content⟩] }

/-- The update loop body of `set_response_for_question`
(`models.py` lines 217-252): update the first entry with the given index,
or append a new one.  `process_user_message` always calls it with
`score=None`, `reason=None` and a concrete `discussion_history`, so existing
scores/reasons are preserved and the history is overwritten. -/
def setResponseForQuestion (resps : List QResponse) (questionIndex : Nat)
    (questionText questionType : String) (discussionHistory : List ChatMsg) :
    List QResponse :=
  match resps with
  | [] => [⟨questionIndex, questionText, questionType, none, none, discussionHistory⟩]
  | r :: rest =>
      if r.questionIndex = questionIndex then
        { r with questionText := questionText, questionType := questionType,
                 discussionHistory := discussionHistory } :: rest
      else
        r :: setResponseForQuestion rest questionIndex questionText questionType discussionHistory

/-- `UserConversationService._append_scratchpad`
(`conversation_service.py` lines 63-71). -/
def appendScratchpad (st : ConvState) (content : String) : ConvState :=
  let content := pyStrip content
  if content = "" then st
  else
    let existing := pyStrip st.scratchpad
    if existing = "" then { st with scratchpad := content }
    else { st with scratchpad := existing ++ "\n\n" ++ content }

/-! ### The per-turn transition (`process_user_message`) -/

/-- Session configuration consumed by `process_user_message`. -/
structure ConvConfig where
  rawQuestions : List RawQuestion
  questionFollowupLimit : Nat
  noNewInformationLimit : Nat
  topic : String
deriving DecidableEq

/-- `followup_limit = max(1, session.question_followup_limit or 1)`
(`conversation_service.py` line 84).  For a `Nat` field `v`,
`max(1, v or 1) = max 1 v`. -/
def followupLimitOf (cfg : ConvConfig) : Nat := max 1 cfg.questionFollowupLimit

/-- `no_new_limit = max(1, session.no_new_information_limit or 1)`
(`conversation_service.py` line 85). -/
def noNewLimitOf (cfg : ConvConfig) : Nat := max 1 cfg.noNewInformationLimit

/-- The parsed JSON payload the gateway returns for one turn
(`conversation_service.py` lines 283-291). -/
structure GwPayload where
  assistantReply : String
  breakdown : List String
  clarificationRequests : List String
  newInformation : Bool
  tempMdEntry : String
  reasoningNotes : String
deriving DecidableEq

/-- The `ConversationResult` fields as they stand when `process_user_message`
returns (`conversation_service.py` lines 41-51). -/
structure TurnOut where
  assistantReply : String
  breakdown : List String
  clarificationRequests : List String
  newInformation : Bool
  tempMdEntry : String
  reasoningNotes : String
  ended : Bool
  finalViewsMd : Option String
  endReason : Option String
deriving DecidableEq

/-- `streak_value` as computed at `conversation_service.py` lines 295-299. -/
def streakValue (st : ConvState) (newInformation : Bool) : Nat :=
  if newInformation then 0 else st.consecutiveNoNew + 1

/-- `total_questions = len(all_questions)` (line 83). -/
def totalOf (cfg : ConvConfig) : Nat := (getAllQuestions cfg.rawQuestions).length

/-- `current_index = min(self.conversation.current_question_index,
total_questions)` (line 86). -/
def currentIndexOf (cfg : ConvConfig) (st : ConvState) : Nat :=
  min st.currentQuestionIndex (totalOf cfg)

/-- `current_question` (lines 90-95; `""` when the index is past the end or
the plan is empty — Python truthiness of `total_questions`). -/
def currentQuestionOf (cfg : ConvConfig) (st : ConvState) : String :=
  if 0 < totalOf cfg ∧ currentIndexOf cfg st < totalOf cfg then
    ((getAllQuestions cfg.rawQuestions).getD (currentIndexOf cfg st) ⟨"", "discussion"⟩).text
  else ""

/-- `current_question_type` (lines 90-95, default `"discussion"`). -/
def currentQuestionTypeOf (cfg : ConvConfig) (st : ConvState) : String :=
  if 0 < totalOf cfg ∧ currentIndexOf cfg st < totalOf cfg then
    ((getAllQuestions cfg.rawQuestions).getD (currentIndexOf cfg st) ⟨"", "discussion"⟩).qtype
  else "discussion"

/-- `next_question_text`: the first discussion question after the current
index (lines 97-104), `""` when there is none. -/
def nextQuestionTextOf (cfg : ConvConfig) (st : ConvState) : String :=
  match ((getAllQuestions cfg.rawQuestions).drop (currentIndexOf cfg st + 1)).find?
      (fun q => q.qtype = "discussion") with
  | some q => q.text
  | none => ""

/-- `responses_for_question` (line 293). -/
def responsesForQuestionOf (cfg : ConvConfig) (st : ConvState) : Nat :=
  if currentQuestionOf cfg st ≠ "" then st.questionFollowups + 1 else st.questionFollowups

/-- `no_new_trigger = bool(current_question) and streak_value >= no_new_limit`
(line 301). -/
def noNewTriggerOf (cfg : ConvConfig) (st : ConvState) (newInformation : Bool) : Bool :=
  decide (currentQuestionOf cfg st ≠ "" ∧ noNewLimitOf cfg ≤ streakValue st newInformation)

/-- `reached_limit = bool(current_question) and responses_for_question >=
followup_limit` (line 302). -/
def reachedLimitOf (cfg : ConvConfig) (st : ConvState) : Bool :=
  decide (currentQuestionOf cfg st ≠ "" ∧ followupLimitOf cfg ≤ responsesForQuestionOf cfg st)

/-- `has_any_next_question = current_index + 1 < total_questions` (line 308). -/
def hasAnyNextOf (cfg : ConvConfig) (st : ConvState) : Bool :=
  decide (currentIndexOf cfg st + 1 < totalOf cfg)

/-- `advance_to_next_question` after the trigger block (lines 304-320). -/
def advanceOf (cfg : ConvConfig) (st : ConvState) (newInformation : Bool) : Bool :=
  if currentQuestionOf cfg st ≠ "" ∧ currentQuestionTypeOf cfg st = "discussion" then
    (noNewTriggerOf cfg st newInformation && hasAnyNextOf cfg st) ||
      (reachedLimitOf cfg st && hasAnyNextOf cfg st)
  else false

/-- `close_conversation` after the trigger block (lines 304-320). -/
def closeOf (cfg : ConvConfig) (st : ConvState) (newInformation : Bool) : Bool :=
  if currentQuestionOf cfg st ≠ "" ∧ currentQuestionTypeOf cfg st = "discussion" then
    (noNewTriggerOf cfg st newInformation && !hasAnyNextOf cfg st) ||
      (reachedLimitOf cfg st && !hasAnyNextOf cfg st)
  else false

/-- `_finalize_views_document` (`conversation_service.py` lines 393-436):
an empty (stripped) scratchpad short-circuits to `""` with no gateway call;
otherwise the gateway's free-form reply is returned stripped.  `finalText`
stands for that reply. -/
def finalizeViewsDocument (tempMarkdown finalText : String) : String :=
  if pyStrip tempMarkdown = "" then "" else pyStrip finalText

/-- `UserConversationService.process_user_message`
(`conversation_service.py` lines 73-391), success path: the gateway call
returned `payload` and, when the turn closes the conversation, the
finalization call returned `finalText`.  Prompt construction (lines 79-260)
only builds the outgoing messages and touches no state, so it is not modelled
here; the token-budget truncation it feeds into is modelled separately below. -/
def processTurn (cfg : ConvConfig) (st : ConvState) (message : String)
    (payload : GwPayload) (finalText : String) : ConvState × TurnOut :=
  let initialMessageCount := st.messageCount
  let totalQuestions := totalOf cfg
  let currentIndex := currentIndexOf cfg st
  let currentQuestion := currentQuestionOf cfg st
  let nextQuestionText := nextQuestionTextOf cfg st
  -- lines 283-291: result object before the trigger logic runs
  let result0 : TurnOut :=
    { assistantReply := payload.assistantReply
      breakdown := payload.breakdown
      clarificationRequests := payload.clarificationRequests
      newInformation := payload.newInformation
      tempMdEntry := payload.tempMdEntry
      reasoningNotes := payload.reasoningNotes
      ended := false
      finalViewsMd := none
      endReason := none }
  -- lines 293-320
  let responsesForQuestion := responsesForQuestionOf cfg st
  let noNewTrigger := noNewTriggerOf cfg st payload.newInformation
  let reachedLimit := reachedLimitOf cfg st
  let hasAnyNextQuestion := hasAnyNextOf cfg st
  let advance := advanceOf cfg st payload.newInformation
  let close := closeOf cfg st payload.newInformation
  -- lines 322-330: courtesy transition / closing sentence
  let reply1 :=
    if advance ∧ nextQuestionText ≠ "" then
      let trimmed := pyRStrip result0.assistantReply
      let note := "Let's move on to the next question: " ++ nextQuestionText
      if trimmed = "" then note else trimmed ++ "\n\n" ++ note
    else result0.assistantReply
  let reply2 :=
    if close then
      let trimmed := pyRStrip reply1
      let note := "I'll summarise your perspective and wrap up our discussion here."
      if trimmed = "" then note else trimmed ++ "\n\n" ++ note
    else reply1
  let result1 := { result0 with assistantReply := reply2 }
  -- lines 332-334: first turn wipes the scratchpad and final document
  let st1 :=
    if initialMessageCount = 0 then { st with scratchpad := "", viewsMarkdown := "" } else st
  -- line 336
  let st2 := appendScratchpad st1 payload.tempMdEntry
  -- lines 338-341
  let st3 := appendMessage st2 "user" message
  let st4 := appendMessage st3 "assistant" result1.assistantReply
  let st5 := { st4 with messageCount := st4.messageCount + 1 }
  -- lines 343-355: snapshot the (full) history for the current question
  let st6 := { st5 with
    responses := setResponseForQuestion st5.responses currentIndex currentQuestion
      "discussion" st5.history }
  -- lines 357-371
  let st7 :=
    if advance then
      { st6 with
        currentQuestionIndex :=
          if hasAnyNextQuestion then currentIndex + 1 else totalQuestions
        questionFollowups := 0
        consecutiveNoNew := 0
        history := [] }
    else if close then
      { st6 with questionFollowups := 0 }
    else
      { st6 with questionFollowups := if currentQuestion ≠ "" then responsesForQuestion else 0 }
  let streakValue1 := if advance then 0 else streakValue st payload.newInformation
  -- lines 373-381
  let st8 :=
    if close then
      { st7 with currentQuestionIndex := totalQuestions, active := false }
    else st7
  let result2 :=
    if close then
      { result1 with
        ended := true
        endReason :=
          if noNewTrigger && !hasAnyNextQuestion then some "no_new_limit"
          else if reachedLimit && !hasAnyNextQuestion then some "followup_limit"
          else none }
    else result1
  let streakValue2 := if close then 0 else streakValue1
  -- line 383
  let st9 := { st8 with
    consecutiveNoNew := if advance || close then 0 else streakValue2 }
  -- lines 385-388: on close, finalize the scratchpad into the views document
  if result2.ended then
    let finalViews := finalizeViewsDocument st9.scratchpad finalText
    ({ st9 with viewsMarkdown := finalViews },
     { result2 with finalViewsMd := some finalViews })
  else
    (st9, result2)

/-- Outcome of the gateway round-trip at `conversation_service.py`
lines 271-281: the `create` call can raise (`raised`), or return text that
`json.loads` either rejects (`parsed none`) or parses into a payload. -/
inductive GwOutcome where
  | raised
  | parsed (payload : Option GwPayload)
deriving DecidableEq

/-- Error taxonomy of the turn (spec section 7): a transport failure is a
`GatewayError`, a non-parseable gateway reply is a `MalformedResponse`
(the code raises `RuntimeError("User bot response was not valid JSON")`). -/
inductive TurnError where
  | gatewayError
  | malformedResponse
deriving DecidableEq

/-- `process_user_message` with its fallible gateway round-trip.  All state
mutation in the source happens after the JSON parse (the first write to
`self.conversation` is at line 332), so on either failure the state is the
caller's unchanged `st`. -/
def processTurnE (cfg : ConvConfig) (st : ConvState) (message : String)
    (outcome : GwOutcome) (finalText : String) :
    ConvState × Except TurnError TurnOut :=
  match outcome with
  | GwOutcome.raised => (st, Except.error TurnError.gatewayError)
  | GwOutcome.parsed none => (st, Except.error TurnError.malformedResponse)
  | GwOutcome.parsed (some payload) =>
      let (st', out) := processTurn cfg st message payload finalText
      (st', Except.ok out)

/-- Iterate successful turns: each input is
`(message, payload, finalizationText)`. -/
def runTurns (cfg : ConvConfig) : ConvState → List (String × GwPayload × String) → ConvState
  | st, [] => st
  | st, (msg, p, f) :: rest => runTurns cfg (processTurn cfg st msg p f).1 rest

/-! ### Token-budget truncation (`conversation_service.py` lines 262-269) -/

/-- Python `messages[:-2]`. -/
def butLastTwo (msgs : List ChatMsg) : List ChatMsg := msgs.take (msgs.length - 2)

/-- Python `messages[-2:]`. -/
def lastTwo (msgs : List ChatMsg) : List ChatMsg := msgs.drop (msgs.length - 2)

/-- The `while` loop at lines 267-268:
`while len(messages_copy) > 5 and sum(estimate over messages_copy + messages[-2:]) > 8000:
   messages_copy = messages_copy[:-2]`. -/
def truncLoop (copy finalPair : List ChatMsg) : List ChatMsg :=
  if 5 < copy.length ∧ maxTokensPerRequest < tokenSum (copy ++ finalPair) then
    truncLoop (copy.take (copy.length - 2)) finalPair
  else copy
termination_by copy.length
decreasing_by
  simp only [List.length_take]
  omega

/-- Lines 262-269 as a whole: if the estimated token sum exceeds the budget,
drop the last message and its duplicate system prompt, trim pairs off the end
of the remaining list while over budget and more than 5 entries remain there,
then re-append the final two messages. -/
def truncateMessages (msgs : List ChatMsg) : List ChatMsg :=
  if maxTokensPerRequest < tokenSum msgs then
    truncLoop (butLastTwo msgs) (lastTwo msgs) ++ lastTwo msgs
  else msgs

/-! ### Debate orchestrator (`ai_deliberation_service.py`) -/

/-- `AgentOpinion` (`ai_deliberation_service.py` lines 27-33). -/
structure AgentOpinion where
  persona : String
  opinion : String
  summary : String
deriving DecidableEq, Inhabited

/-- One entry of the `AIDebateRun.transcript` list
(`ai_deliberation_service.py` lines 86-94 and 128-136). -/
structure DebateTurn where
  questionIndex : Nat
  question : String
  round : Nat
  agentIndex : Nat
  persona : String
  opinion : String
  terseSummary : String
deriving DecidableEq, Inhabited

/-- `AIDebateRun` record fields the orchestrator writes
(`models.py` lines 340-349; `transcript` defaults to `[]`,
`completed` to `False`). -/
structure DebateRun where
  transcript : List DebateTurn
  completed : Bool
deriving DecidableEq

/-- The arguments of one `_get_agent_opinion` gateway call, recorded so the
context supplied to each opinion request can be stated: which question and
round it served, the agent index, the `prior_opinions` list passed in, and
the messages sent. -/
structure OpinionCall where
  questionIndex : Nat
  round : Nat
  agentIndex : Nat
  priorOpinions : List AgentOpinion
  messages : List ChatMsg
deriving DecidableEq, Inhabited

/-- `AIDeliberationSession.get_question_sequence` (`models.py` lines 294-304):
strip each entry, drop empties.  Entries are modelled as strings (the
`str(entry)` fallback coerces everything else to a string anyway). -/
def getQuestionSequence : List String → List String
  | [] => []
  | e :: rest =>
      let c := pyStrip e
      if c = "" then getQuestionSequence rest else c :: getQuestionSequence rest

/-- `AIDeliberationSession.get_personas` (`models.py` lines 306-316). -/
def getPersonas : List String → List String
  | [] => []
  | e :: rest =>
      let c := pyStrip e
      if c = "" then getPersonas rest else c :: getPersonas rest

/-- The session fields `run_deliberation` consumes. -/
structure DebateSession where
  objectiveQuestions : List String
  personas : List String
  userInstructions : String

/-- The prior-opinions context block built at
`ai_deliberation_service.py` lines 161-167. -/
def opinionsTextOf (priorOpinions : List AgentOpinion) : String :=
  if priorOpinions.isEmpty then ""
  else
    String.intercalate "\n"
      (priorOpinions.enum.map
        (fun p => s!"Agent {p.1 + 1} ({p.2.persona}): {p.2.summary}"))

/-- The system prompt of `_get_agent_opinion`
(`ai_deliberation_service.py` lines 169-178). -/
def opinionSystemPrompt (persona userInstructions : String) : String :=
  let base :=
    "You are an AI agent whose personality and perspective is described as follows:\n"
      ++ persona
      ++ "\n\nYou are participating in a structured debate with other AI agents."
  if userInstructions ≠ "" ∧ pyStrip userInstructions ≠ "" then
    base ++ "\n\nMODERATOR INSTRUCTIONS:\n" ++ userInstructions
  else base

/-- The user prompt of `_get_agent_opinion`
(`ai_deliberation_service.py` lines 180-196). -/
def opinionUserPrompt (question : String) (priorOpinions : List AgentOpinion)
    (roundNumber : Nat) : String :=
  let roundContext :=
    if 1 < roundNumber then s!" (Round {roundNumber} of deliberation)" else ""
  let base := s!"Objective question{roundContext}: {question}\n\n"
  let opinionsText := opinionsTextOf priorOpinions
  let withOpinions :=
    if opinionsText ≠ "" then
      base ++ "Opinions shared by other agents:\n" ++ opinionsText ++ "\n\n"
    else base
  withOpinions
    ++ "Please state your opinion on this question in clear language. "
    ++ "You may agree, disagree, or introduce new points. "
    ++ "Be thoughtful and substantive."

/-- The message list of the opinion request
(`ai_deliberation_service.py` lines 199-202). -/
def buildOpinionMessages (persona question : String)
    (priorOpinions : List AgentOpinion) (userInstructions : String)
    (roundNumber : Nat) : List ChatMsg :=
  [⟨"system", opinionSystemPrompt persona userInstructions⟩,
   ⟨"user", opinionUserPrompt question priorOpinions roundNumber⟩]

/-- The message list of the terse-summary request
(`ai_deliberation_service.py` lines 230-247). -/
def buildSummaryMessages (persona opinion : String) : List ChatMsg :=
  let truncatedOpinion :=
    if opinion.length ≤ 500 then opinion else strTake opinion 500 ++ "..."
  [⟨"system",
    "You are summarizing the opinion of an AI agent with this persona:\n"
      ++ persona
      ++ "\n\nCreate a very terse (2-3 sentences) summary of their position."⟩,
   ⟨"user",
    "Agent's full opinion:\n" ++ truncatedOpinion
      ++ "\n\nProvide a terse summary (2-3 sentences max)."⟩]

/-- `_generate_terse_summary` (`ai_deliberation_service.py` lines 224-255)
over a fallible gateway oracle (`none` = the client call raised). -/
def generateTerseSummaryE (gwE : List ChatMsg → Option String)
    (persona opinion : String) : Option String :=
  if opinion = "" then some ""
  else gwE (buildSummaryMessages persona opinion)

/-- `_get_agent_opinion` (`ai_deliberation_service.py` lines 143-222)
over a fallible gateway oracle. -/
def getAgentOpinionE (gwE : List ChatMsg → Option String)
    (persona question : String) (priorOpinions : List AgentOpinion)
    (userInstructions : String) (roundNumber : Nat) : Option AgentOpinion :=
  match gwE (buildOpinionMessages persona question priorOpinions userInstructions roundNumber) with
  | none => none
  | some opinionText =>
      match generateTerseSummaryE gwE persona opinionText with
      | none => none
      | some summary => some ⟨persona, opinionText, summary⟩

/-- Round 1 of one question (`ai_deliberation_service.py` lines 66-94):
each agent, in index order, states an opinion *hearing all previous agents'
summaries* (`opinions_so_far` accumulates and is passed as
`prior_opinions`).  Returns the committed round-1 opinions in agent order,
the transcript turns and the opinion-call log; on a gateway failure the
error carries the turns appended before the failing call. -/
def runRound1E (gwE : List ChatMsg → Option String) (userInstructions : String)
    (questionIdx : Nat) (question : String) :
    List (Nat × String) → List AgentOpinion →
    Except (List DebateTurn) (List AgentOpinion × List DebateTurn × List OpinionCall)
  | [], _ => Except.ok ([], [], [])
  | (agentIdx, persona) :: rest, opinionsSoFar =>
      match getAgentOpinionE gwE persona question opinionsSoFar userInstructions 1 with
      | none => Except.error []
      | some op =>
          let turn : DebateTurn :=
            ⟨questionIdx, question, 1, agentIdx, persona, op.opinion, op.summary⟩
          let call : OpinionCall :=
            ⟨questionIdx, 1, agentIdx, opinionsSoFar,
             buildOpinionMessages persona question opinionsSoFar userInstructions 1⟩
          match runRound1E gwE userInstructions questionIdx question rest (opinionsSoFar ++ [op]) with
          | Except.error ts => Except.error (turn :: ts)
          | Except.ok (ops, ts, cs) => Except.ok (op :: ops, turn :: ts, call :: cs)

/-- `rotating_sequence = [(starting_agent_idx + i) % num_agents
for i in range(1, num_agents)]` (`ai_deliberation_service.py` lines 103-106). -/
def rotatingSequence (numAgents startingAgentIdx : Nat) : List Nat :=
  (List.range' 1 (numAgents - 1)).map (fun i => (startingAgentIdx + i) % numAgents)

/-- Round 2 of one question (`ai_deliberation_service.py` lines 96-136):
for each starting agent index (the list argument is
`range(num_agents)`), share the *round-1* opinions of the other agents in
rotating order and get a second opinion.  Runs unconditionally, whatever the
number of agents. -/
def runRound2E (gwE : List ChatMsg → Option String) (userInstructions : String)
    (questionIdx : Nat) (question : String) (personas : List String)
    (round1Opinions : List AgentOpinion) :
    List Nat → Except (List DebateTurn) (List DebateTurn × List OpinionCall)
  | [] => Except.ok ([], [])
  | startingAgentIdx :: rest =>
      let opinionsToShare :=
        (rotatingSequence personas.length startingAgentIdx).map
          (fun j => round1Opinions.getD j default)
      let agentPersona := personas.getD startingAgentIdx ""
      match getAgentOpinionE gwE agentPersona question opinionsToShare userInstructions 2 with
      | none => Except.error []
      | some op =>
          let turn : DebateTurn :=
            ⟨questionIdx, question, 2, startingAgentIdx, agentPersona, op.opinion, op.summary⟩
          let call : OpinionCall :=
            ⟨questionIdx, 2, startingAgentIdx, opinionsToShare,
             buildOpinionMessages agentPersona question opinionsToShare userInstructions 2⟩
          match runRound2E gwE userInstructions questionIdx question personas round1Opinions rest with
          | Except.error ts => Except.error (turn :: ts)
          | Except.ok (ts, cs) => Except.ok (turn :: ts, call :: cs)

/-- The per-question loop of `run_deliberation`
(`ai_deliberation_service.py` lines 66-136) over the enumerated question
list: round 1 fully, then round 2 fully, then the next question. -/
def runQuestionsE (gwE : List ChatMsg → Option String) (userInstructions : String)
    (personas : List String) :
    List (Nat × String) → Except (List DebateTurn) (List DebateTurn × List OpinionCall)
  | [] => Except.ok ([], [])
  | (questionIdx, question) :: rest =>
      match runRound1E gwE userInstructions questionIdx question personas.enum [] with
      | Except.error ts => Except.error ts
      | Except.ok (ops, ts1, cs1) =>
          match runRound2E gwE userInstructions questionIdx question personas ops
              (List.range personas.length) with
          | Except.error ts2 => Except.error (ts1 ++ ts2)
          | Except.ok (ts2, cs2) =>
              match runQuestionsE gwE userInstructions personas rest with
              | Except.error ts => Except.error (ts1 ++ ts2 ++ ts)
              | Except.ok (ts, cs) => Except.ok (ts1 ++ ts2 ++ ts, cs1 ++ cs2 ++ cs)

/-- `run_deliberation` (`ai_deliberation_service.py` lines 43-141) over a
fallible gateway.  On success the run record gets the transcript and
`completed=True`; an in-flight gateway exception propagates (the `Except.error`
case) carrying the local partial transcript, which the source then *loses*:
the persisted run record keeps its defaults (`transcript=[]`,
`completed=False`) because lines 138-140 never execute. -/
def runDeliberationE (gwE : List ChatMsg → Option String) (s : DebateSession) :
    Except (List DebateTurn) (DebateRun × List OpinionCall) :=
  let questions := getQuestionSequence s.objectiveQuestions
  let personas := getPersonas s.personas
  if questions.isEmpty ∨ personas.isEmpty then
    Except.ok ({ transcript := [], completed := true }, [])
  else
    match runQuestionsE gwE s.userInstructions personas questions.enum with
    | Except.error ts => Except.error ts
    | Except.ok (ts, cs) => Except.ok ({ transcript := ts, completed := true }, cs)

/-- A total gateway oracle lifted into the fallible interface. -/
def totalGw (gw : List ChatMsg → String) : List ChatMsg → Option String :=
  fun m => some (gw m)

/-- `run_deliberation` with a total (never-raising) gateway: the run record
and the opinion-call log.  The error branch is unreachable here and mirrors
what the database record holds if the method raises (defaults untouched). -/
def runDeliberation (gw : List ChatMsg → String) (s : DebateSession) :
    DebateRun × List OpinionCall :=
  match runDeliberationE (totalGw gw) s with
  | Except.ok r => r
  | Except.error _ => ({ transcript := [], completed := false }, [])

/-- The synthetic terminal transcript entry the failure wrapper appends
(content modelled; the source of the wrapper is absent, see
`startDeliberation`). -/
def syntheticErrorTurn : DebateTurn :=
  ⟨0, "", 0, 0, "system", "The deliberation run was aborted by an internal error.", ""⟩

/-- Modelled from the spec: `AIDeliberationService.start_deliberation`, the
failure-handling entry point that `views.py` line 675 invokes
(`service.start_deliberation(blocking=False)`) but whose definition is not in
the source tree.  Per the spec's failure semantics (section 4.2: "any gateway
exception aborts the run, appends one synthetic error `Turn`, and sets
`completed=true` with the partial transcript retained"), it runs the
deliberation protocol of `run_deliberation` and converts an in-flight gateway
failure into a terminal synthetic transcript entry. -/
def startDeliberation (gwE : List ChatMsg → Option String) (s : DebateSession) :
    DebateRun :=
  match runDeliberationE gwE s with
  | Except.ok (run, _) => run
  | Except.error doneTurns =>
      { transcript := doneTurns ++ [syntheticErrorTurn], completed := true }

/-! ### Auxiliary definitions used by the theorems -/

/-- Occurrence of `needle` as a contiguous segment of `hay` (character
lists). -/
def listContainsSeg (needle : List Char) : List Char → Bool
  | [] => needle.isEmpty
  | x :: xs => needle.isPrefixOf (x :: xs) || listContainsSeg needle xs

/-- Occurrence of `needle` as a contiguous substring of `hay`. -/
def strContainsSeg (needle hay : String) : Bool :=
  listContainsSeg needle.data hay.data

/-- The opinion `_get_agent_opinion` returns when the gateway never raises:
the opinion text is the gateway's reply to the opinion request, the summary is
`""` for an empty opinion and otherwise the gateway's reply to the summary
request. -/
def agentOpinionTotal (gw : List ChatMsg → String) (persona question : String)
    (priorOpinions : List AgentOpinion) (userInstructions : String)
    (roundNumber : Nat) : AgentOpinion :=
  let opinionText :=
    gw (buildOpinionMessages persona question priorOpinions userInstructions roundNumber)
  ⟨persona, opinionText,
   if opinionText = "" then "" else gw (buildSummaryMessages persona opinionText)⟩

/-- Transcript part of a round-1 result (turns recorded whether or not the
round failed part-way). -/
def r1Turns (r : Except (List DebateTurn)
    (List AgentOpinion × List DebateTurn × List OpinionCall)) : List DebateTurn :=
  match r with
  | Except.error ts => ts
  | Except.ok (_, ts, _) => ts

/-- Transcript part of a round-2 (or whole-run) result. -/
def r2Turns (r : Except (List DebateTurn) (List DebateTurn × List OpinionCall)) :
    List DebateTurn :=
  match r with
  | Except.error ts => ts
  | Except.ok (ts, _) => ts

/-! #### Concrete instances for counterexamples and witnesses -/

/-- One-discussion-question plan with `followup_limit=2`, `no_new_limit=2`. -/
def cfgOneQLimit2 : ConvConfig := ⟨[RawQuestion.dict "Q0" "discussion"], 2, 2, "T"⟩

/-- One-discussion-question plan with `followup_limit=3`, `no_new_limit=2`. -/
def cfgOneQLimit3 : ConvConfig := ⟨[RawQuestion.dict "Q0" "discussion"], 3, 2, "T"⟩

/-- Empty plan with both limits 1. -/
def cfgEmptyPlan : ConvConfig := ⟨[], 1, 1, "T"⟩

/-- A gateway payload carrying new information. -/
def novelPayload : GwPayload := ⟨"R", [], [], true, "", ""⟩

/-- A gateway payload carrying no new information. -/
def repeatPayload : GwPayload := ⟨"R", [], [], false, "", ""⟩

/-- A conversation about to receive its 15th message. -/
def stTurn14 : ConvState := { freshConvState with messageCount := 14 }

/-- 40000 `'a'`s: estimated at 10000 tokens. -/
def bigContent : String := String.mk (List.replicate 40000 'a')

/-- An (almost) token-free message. -/
def smallMsg : ChatMsg := ⟨"system", ""⟩

/-- A message far over the whole token budget by itself. -/
def bigMsg : ChatMsg := ⟨"system", bigContent⟩

/-- Seven messages totalling 20005 estimated tokens whose two huge entries
sit just before the final two, where the truncation loop's floor
(`len(messages_copy) > 5`) prevents their removal. -/
def overBudgetMsgs : List ChatMsg :=
  [smallMsg, smallMsg, smallMsg, bigMsg, bigMsg, smallMsg, smallMsg]

/-- The five-entry alternative: drop the pair of huge messages, keep the
final two — within every constraint the claim lists, and under budget. -/
def inBudgetAlternative : List ChatMsg :=
  [smallMsg, smallMsg, smallMsg, smallMsg, smallMsg]

/-- A gateway that always replies with a recognisable marker string. -/
def gwMarker : List ChatMsg → String := fun _ => "PEERSUMMARYX"

/-- Two personas, one question. -/
def sessTwoPersonas : DebateSession := ⟨["Q"], ["P0", "P1"], ""⟩

/-- One persona, one question. -/
def sessOnePersona : DebateSession := ⟨["Q"], ["P"], ""⟩

/-- No questions at all. -/
def sessNoQuestions : DebateSession := ⟨[], ["P"], ""⟩

/-- Personas `[A, B, C]`, single question `Q0`, arbitrary moderator
instructions: the session of the three-persona protocol property. -/
def sessABC (ui : String) : DebateSession := ⟨["Q0"], ["A", "B", "C"], ui⟩

/-- Round-1 opinion of persona A in `sessABC` (persona-only context). -/
def abcOp0 (gw : List ChatMsg → String) (ui : String) : AgentOpinion :=
  agentOpinionTotal gw "A" "Q0" [] ui 1

/-- Round-1 opinion of persona B (hears A's summary). -/
def abcOp1 (gw : List ChatMsg → String) (ui : String) : AgentOpinion :=
  agentOpinionTotal gw "B" "Q0" [abcOp0 gw ui] ui 1

/-- Round-1 opinion of persona C (hears A's and B's summaries). -/
def abcOp2 (gw : List ChatMsg → String) (ui : String) : AgentOpinion :=
  agentOpinionTotal gw "C" "Q0" [abcOp0 gw ui, abcOp1 gw ui] ui 1

/-- The rotating round-2 context of agent `i` in `sessABC`. -/
def abcShare (gw : List ChatMsg → String) (ui : String) (i : Nat) : List AgentOpinion :=
  (rotatingSequence 3 i).map
    (fun j => ([abcOp0 gw ui, abcOp1 gw ui, abcOp2 gw ui]).getD j default)

/-- Round-2 opinion of agent `i` in `sessABC`. -/
def abcR2 (gw : List ChatMsg → String) (ui : String) (i : Nat) : AgentOpinion :=
  agentOpinionTotal gw ((["A", "B", "C"] : List String).getD i "") "Q0"
    (abcShare gw ui i) ui 2

/-- The transcript the `sessABC` run produces. -/
def abcTurns (gw : List ChatMsg → String) (ui : String) : List DebateTurn :=
  [⟨0, "Q0", 1, 0, "A", (abcOp0 gw ui).opinion, (abcOp0 gw ui).summary⟩,
   ⟨0, "Q0", 1, 1, "B", (abcOp1 gw ui).opinion, (abcOp1 gw ui).summary⟩,
   ⟨0, "Q0", 1, 2, "C", (abcOp2 gw ui).opinion, (abcOp2 gw ui).summary⟩,
   ⟨0, "Q0", 2, 0, "A", (abcR2 gw ui 0).opinion, (abcR2 gw ui 0).summary⟩,
   ⟨0, "Q0", 2, 1, "B", (abcR2 gw ui 1).opinion, (abcR2 gw ui 1).summary⟩,
   ⟨0, "Q0", 2, 2, "C", (abcR2 gw ui 2).opinion, (abcR2 gw ui 2).summary⟩]

/-- The opinion-call log the `sessABC` run produces. -/
def abcCalls (gw : List ChatMsg → String) (ui : String) : List OpinionCall :=
  [⟨0, 1, 0, [], buildOpinionMessages "A" "Q0" [] ui 1⟩,
   ⟨0, 1, 1, [abcOp0 gw ui], buildOpinionMessages "B" "Q0" [abcOp0 gw ui] ui 1⟩,
   ⟨0, 1, 2, [abcOp0 gw ui, abcOp1 gw ui],
     buildOpinionMessages "C" "Q0" [abcOp0 gw ui, abcOp1 gw ui] ui 1⟩,
   ⟨0, 2, 0, abcShare gw ui 0, buildOpinionMessages "A" "Q0" (abcShare gw ui 0) ui 2⟩,
   ⟨0, 2, 1, abcShare gw ui 1, buildOpinionMessages "B" "Q0" (abcShare gw ui 1) ui 2⟩,
   ⟨0, 2, 2, abcShare gw ui 2, buildOpinionMessages "C" "Q0" (abcShare gw ui 2) ui 2⟩]

/-- A gateway whose every call raises. -/
def gwAlwaysRaises : List ChatMsg → Option String := fun _ => none

/-!
## Theorems

One theorem per claim of the specification review, with counterexamples and
witnesses where called for.
-/

/-- C8: if the gateway call raises, or returns text that does not parse as
JSON, the turn fails with the corresponding error (`GatewayError` /
`MalformedResponse`) and the conversation state is returned exactly
unchanged — every field (history, scratchpad, message count, streak,
followups, index, active flag, per-question responses) keeps its pre-call
value — so re-running the same utterance afterwards behaves as if the
failure had never happened. -/
theorem gateway_failure_leaves_state_unchanged (cfg : ConvConfig) (st : ConvState)
    (msg finalText : String) :
    processTurnE cfg st msg GwOutcome.raised finalText
      = (st, Except.error TurnError.gatewayError) ∧
    processTurnE cfg st msg (GwOutcome.parsed none) finalText
      = (st, Except.error TurnError.malformedResponse) ∧
    ∀ p : GwPayload,
      processTurnE cfg (processTurnE cfg st msg GwOutcome.raised finalText).1 msg
          (GwOutcome.parsed (some p)) finalText
        = processTurnE cfg st msg (GwOutcome.parsed (some p)) finalText :=
  ⟨rfl, rfl, fun _ => rfl⟩

/-- C3 counterexample: with `plan=[Q0(discussion)]`, `followUpLimit=2`,
`noNewInfoLimit=2` and gateway results `(new_information=true, false)`, the
conversation closes already on turn 2 — with `endReason="followup_limit"`,
index moved past the plan and the streak reset — because the second reply
makes `responses_for_question = 2 ≥ followUpLimit`.  The claimed state
`(streak=1, index=0)` after turn 2, and a turn-3 close with
`endReason="no_new_limit"`, never happen. -/
theorem followup_limit2_closes_on_turn2_cex :
    (processTurn cfgOneQLimit2
        (processTurn cfgOneQLimit2 freshConvState "m1" novelPayload "").1
        "m2" repeatPayload "").1.active = false ∧
    (processTurn cfgOneQLimit2
        (processTurn cfgOneQLimit2 freshConvState "m1" novelPayload "").1
        "m2" repeatPayload "").1.currentQuestionIndex = 1 ∧
    (processTurn cfgOneQLimit2
        (processTurn cfgOneQLimit2 freshConvState "m1" novelPayload "").1
        "m2" repeatPayload "").1.consecutiveNoNew = 0 ∧
    (processTurn cfgOneQLimit2
        (processTurn cfgOneQLimit2 freshConvState "m1" novelPayload "").1
        "m2" repeatPayload "").2.ended = true ∧
    (processTurn cfgOneQLimit2
        (processTurn cfgOneQLimit2 freshConvState "m1" novelPayload "").1
        "m2" repeatPayload "").2.endReason = some "followup_limit" := by
  decide

/-- C3 (amended): with `followUpLimit=3` (so that the follow-up limit cannot
pre-empt the novelty policy), `noNewInfoLimit=2` and gateway results
`(true, false, false)`, the state is `(streak=0, index=0)` after turn 1 and
`(streak=1, index=0)` after turn 2, and on turn 3 the streak reaches the
limit and the conversation closes with `endReason="no_new_limit"`. -/
theorem no_new_limit_run_with_followup_limit3 :
    (processTurn cfgOneQLimit3 freshConvState "m1" novelPayload "").1.consecutiveNoNew = 0 ∧
    (processTurn cfgOneQLimit3 freshConvState "m1" novelPayload
        "").1.currentQuestionIndex = 0 ∧
    (processTurn cfgOneQLimit3 freshConvState "m1" novelPayload "").1.active = true ∧
    (processTurn cfgOneQLimit3
        (processTurn cfgOneQLimit3 freshConvState "m1" novelPayload "").1
        "m2" repeatPayload "").1.consecutiveNoNew = 1 ∧
    (processTurn cfgOneQLimit3
        (processTurn cfgOneQLimit3 freshConvState "m1" novelPayload "").1
        "m2" repeatPayload "").1.currentQuestionIndex = 0 ∧
    (processTurn cfgOneQLimit3
        (processTurn cfgOneQLimit3 freshConvState "m1" novelPayload "").1
        "m2" repeatPayload "").1.active = true ∧
    (processTurn cfgOneQLimit3
        (processTurn cfgOneQLimit3
            (processTurn cfgOneQLimit3 freshConvState "m1" novelPayload "").1
            "m2" repeatPayload "").1
        "m3" repeatPayload "").2.ended = true ∧
    (processTurn cfgOneQLimit3
        (processTurn cfgOneQLimit3
            (processTurn cfgOneQLimit3 freshConvState "m1" novelPayload "").1
            "m2" repeatPayload "").1
        "m3" repeatPayload "").2.endReason = some "no_new_limit" ∧
    (processTurn cfgOneQLimit3
        (processTurn cfgOneQLimit3
            (processTurn cfgOneQLimit3 freshConvState "m1" novelPayload "").1
            "m2" repeatPayload "").1
        "m3" repeatPayload "").1.active = false := by
  decide

/-- C6: with an empty question plan the engine runs in open-ended mode keyed
off the session topic, but `process_user_message` contains no turn-count
ceiling: at the failing input — a conversation receiving its 15th message —
the turn leaves `active=true`, reports `ended=false` and no `end_reason`
(there is no `"message_limit"` close anywhere in the code, contradicting the
documented 15-message limit). -/
theorem empty_plan_fifteenth_turn_stays_active :
    (processTurn cfgEmptyPlan stTurn14 "m" repeatPayload "").1.active = true ∧
    (processTurn cfgEmptyPlan stTurn14 "m" repeatPayload "").1.messageCount = 15 ∧
    (processTurn cfgEmptyPlan stTurn14 "m" repeatPayload "").2.ended = false ∧
    (processTurn cfgEmptyPlan stTurn14 "m" repeatPayload "").2.endReason = none := by
  decide

/-- C4 counterexample: a debate run with exactly one persona and one question
still executes the second (critique) round — the transcript is one round-1
turn followed by one round-2 turn, not initial-stage turns only.
(`completed=true` does hold.) -/
theorem single_persona_has_round2_turn_cex :
    ((runDeliberation gwMarker sessOnePersona).1.transcript.map
        (fun t => (t.round, t.agentIndex))) = [(1, 0), (2, 0)] ∧
    (runDeliberation gwMarker sessOnePersona).1.completed = true := by
  decide

/-- C2 counterexample: in a two-persona run, the *round-1* gateway call for
the second persona (call log entry 1) is not persona-only: it is passed the
first persona's committed opinion as `prior_opinions`, and the user prompt
sent to the gateway contains the first persona's terse summary (the marker
string every gateway reply consists of) verbatim. -/
theorem round1_call_includes_peer_summary_cex :
    ((runDeliberation gwMarker sessTwoPersonas).2.getD 1 default).round = 1 ∧
    ((runDeliberation gwMarker sessTwoPersonas).2.getD 1 default).agentIndex = 1 ∧
    ((runDeliberation gwMarker sessTwoPersonas).2.getD 1 default).priorOpinions.map
        (fun o => o.persona) = ["P0"] ∧
    strContainsSeg "PEERSUMMARYX"
      ((((runDeliberation gwMarker sessTwoPersonas).2.getD 1 default).messages.getD 1
          default).content) = true := by
  decide

/-! #### Token-budget truncation lemmas (C9) -/

theorem strLength_mk (l : List Char) : (String.mk l).length = l.length := rfl

theorem estimateTokens_bigContent : estimateTokens bigContent = 10000 := by
  have h : bigContent.length = 40000 := by
    show (String.mk (List.replicate 40000 'a')).length = 40000
    rw [strLength_mk, List.length_replicate]
  show max 1 (bigContent.length / 4) = 10000
  rw [h]
  norm_num

theorem estimateTokens_empty : estimateTokens "" = 1 := by decide

theorem tokenSum_overBudget : tokenSum overBudgetMsgs = 20005 := by
  show (List.map (fun m => estimateTokens m.content) overBudgetMsgs).sum = 20005
  rw [show overBudgetMsgs
      = [smallMsg, smallMsg, smallMsg, bigMsg, bigMsg, smallMsg, smallMsg] from rfl]
  simp only [List.map_cons, List.map_nil, List.sum_cons, List.sum_nil,
    show smallMsg.content = "" from rfl, show bigMsg.content = bigContent from rfl,
    estimateTokens_bigContent, estimateTokens_empty]
  norm_num

/-- The truncation loop returns an even-length-difference prefix of its
input, removes nothing once at most 5 entries remain, and never goes below
4 entries. -/
theorem truncLoop_take_spec :
    ∀ (n : Nat) (copy fp : List ChatMsg), copy.length ≤ n →
    ∃ m, m ≤ copy.length ∧ m % 2 = copy.length % 2 ∧ min copy.length 4 ≤ m ∧
      truncLoop copy fp = copy.take m := by
  intro n
  induction n with
  | zero =>
      intro copy fp h
      refine ⟨copy.length, le_refl _, rfl, Nat.min_le_left _ _, ?_⟩
      rw [truncLoop, if_neg, List.take_length]
      intro hc
      omega
  | succ n ih =>
      intro copy fp h
      by_cases hc : 5 < copy.length ∧ maxTokensPerRequest < tokenSum (copy ++ fp)
      · obtain ⟨m', hle, hpar, hmin, heq⟩ :=
          ih (copy.take (copy.length - 2)) fp (by simp [List.length_take]; omega)
        simp only [List.length_take] at hle hpar hmin
        refine ⟨m', by omega, by omega, by omega, ?_⟩
        rw [truncLoop, if_pos hc, heq, List.take_take]
        congr 1
        omega
      · refine ⟨copy.length, le_refl _, rfl, Nat.min_le_left _ _, ?_⟩
        rw [truncLoop, if_neg hc, List.take_length]

/-- If the truncation loop's result is still over budget, the loop stopped at
its floor: at most 5 entries remain in the trimmed segment. -/
theorem truncLoop_budget :
    ∀ (n : Nat) (copy fp : List ChatMsg), copy.length ≤ n →
    maxTokensPerRequest < tokenSum (truncLoop copy fp ++ fp) →
    (truncLoop copy fp).length ≤ 5 := by
  intro n
  induction n with
  | zero =>
      intro copy fp h
      rw [truncLoop, if_neg (by omega)]
      intro _
      omega
  | succ n ih =>
      intro copy fp h
      by_cases hc : 5 < copy.length ∧ maxTokensPerRequest < tokenSum (copy ++ fp)
      · rw [truncLoop, if_pos hc]
        exact ih _ fp (by simp [List.length_take]; omega)
      · rw [truncLoop, if_neg hc]
        intro hsum
        rcases Nat.lt_or_ge 5 copy.length with h5 | h5
        · exact absurd ⟨h5, hsum⟩ hc
        · exact h5

/-- On the seven-message counterexample the loop's floor stops truncation
immediately, so the over-budget list comes back unchanged. -/
theorem truncateMessages_overBudget_id :
    truncateMessages overBudgetMsgs = overBudgetMsgs := by
  unfold truncateMessages
  rw [if_pos (by rw [tokenSum_overBudget]; norm_num [maxTokensPerRequest])]
  have h1 : butLastTwo overBudgetMsgs = [smallMsg, smallMsg, smallMsg, bigMsg, bigMsg] := rfl
  have h2 : lastTwo overBudgetMsgs = [smallMsg, smallMsg] := rfl
  rw [truncLoop, if_neg (by rw [h1]; intro hx; exact absurd hx.1 (by norm_num))]
  rw [h1, h2]
  rfl

/-- C9 counterexample: `overBudgetMsgs` has 7 entries and an estimated token
sum of 20005 > 8000; removing the pair of huge entries while preserving the
final two leaves 5 entries summing to 5 ≤ 8000 — structurally possible under
every constraint the claim lists — yet the implemented truncation returns the
list unchanged (the loop floor `len(messages_copy) > 5` stops it at once),
still over budget.  So "the resulting list's estimated token sum is ≤ 8000
whenever that is structurally possible" is false. -/
theorem truncation_budget_not_reached_cex :
    maxTokensPerRequest < tokenSum overBudgetMsgs ∧
    (∃ pre, inBudgetAlternative = pre ++ lastTwo overBudgetMsgs ∧
        pre.Sublist (butLastTwo overBudgetMsgs) ∧
        pre.length % 2 = (butLastTwo overBudgetMsgs).length % 2 ∧
        5 ≤ inBudgetAlternative.length ∧
        tokenSum inBudgetAlternative ≤ maxTokensPerRequest) ∧
    maxTokensPerRequest < tokenSum (truncateMessages overBudgetMsgs) := by
  refine ⟨by rw [tokenSum_overBudget]; norm_num [maxTokensPerRequest],
    ⟨[smallMsg, smallMsg, smallMsg], rfl, ?_, by decide, by decide, by decide⟩, ?_⟩
  · rw [show butLastTwo overBudgetMsgs
        = [smallMsg, smallMsg, smallMsg, bigMsg, bigMsg] from rfl]
    exact List.sublist_append_left [smallMsg, smallMsg, smallMsg] [bigMsg, bigMsg]
  · rw [truncateMessages_overBudget_id, tokenSum_overBudget]
    norm_num [maxTokensPerRequest]

/-- C9 (amended): on any constructed message list of at least 5 entries the
truncation step removes entries in pairs (always an even number, taken off
the end of the segment before the final two), preserves the final two
entries, never produces a result with fewer than 5 entries, and whenever the
result still exceeds the 8000-token budget the loop has reached its floor:
at most 5 entries besides the final two (at most 7 in all) remain.  Within
the loop's reachable configurations the budget is met whenever possible; a
7-entry over-budget list is returned unchanged even when dropping one more
pair would fit (see the counterexample). -/
theorem truncation_pairs_floor_and_budget (msgs : List ChatMsg)
    (h5 : 5 ≤ msgs.length) :
    (∃ pre, truncateMessages msgs = pre ++ lastTwo msgs ∧
        pre.Sublist (butLastTwo msgs) ∧
        pre.length % 2 = (butLastTwo msgs).length % 2) ∧
    5 ≤ (truncateMessages msgs).length ∧
    (maxTokensPerRequest < tokenSum (truncateMessages msgs) →
      (truncateMessages msgs).length ≤ 7) := by
  have hbl : (butLastTwo msgs).length = msgs.length - 2 := by
    simp [butLastTwo, List.length_take]
  have hlt : (lastTwo msgs).length = 2 := by
    simp [lastTwo, List.length_drop]; omega
  unfold truncateMessages
  by_cases hb : maxTokensPerRequest < tokenSum msgs
  · rw [if_pos hb]
    obtain ⟨m, hle, hpar, hmin, heq⟩ :=
      truncLoop_take_spec (butLastTwo msgs).length (butLastTwo msgs) (lastTwo msgs) le_rfl
    have hlen : (truncLoop (butLastTwo msgs) (lastTwo msgs)).length = m := by
      rw [heq, List.length_take]; omega
    refine ⟨⟨(butLastTwo msgs).take m, by rw [heq], List.take_sublist _ _, ?_⟩, ?_, ?_⟩
    · rw [List.length_take]; omega
    · rw [List.length_append, hlen, hlt]; omega
    · intro hsum
      have hb5 := truncLoop_budget (butLastTwo msgs).length (butLastTwo msgs)
        (lastTwo msgs) le_rfl hsum
      rw [List.length_append, hlt]
      omega
  · rw [if_neg hb]
    exact ⟨⟨butLastTwo msgs, (List.take_append_drop _ msgs).symm, List.Sublist.refl _, rfl⟩,
      h5, fun hsum => absurd hsum hb⟩

/-- Witness for the amended C9 theorem at the concrete five-message list. -/
theorem truncation_pairs_floor_and_budget_witness :
    5 ≤ inBudgetAlternative.length ∧ 5 ≤ (truncateMessages inBudgetAlternative).length :=
  ⟨by decide, (truncation_pairs_floor_and_budget inBudgetAlternative (by decide)).2.1⟩

/-! #### Participant-engine observation lemmas and the C5 invariant -/

theorem appendScratchpad_active (st : ConvState) (c : String) :
    (appendScratchpad st c).active = st.active := by
  simp only [appendScratchpad]
  split_ifs <;> rfl

theorem appendScratchpad_index (st : ConvState) (c : String) :
    (appendScratchpad st c).currentQuestionIndex = st.currentQuestionIndex := by
  simp only [appendScratchpad]
  split_ifs <;> rfl

theorem appendScratchpad_streak (st : ConvState) (c : String) :
    (appendScratchpad st c).consecutiveNoNew = st.consecutiveNoNew := by
  simp only [appendScratchpad]
  split_ifs <;> rfl

theorem processTurn_active (cfg : ConvConfig) (st : ConvState) (m : String)
    (p : GwPayload) (f : String) :
    (processTurn cfg st m p f).1.active
      = if closeOf cfg st p.newInformation then false else st.active := by
  cases hC : closeOf cfg st p.newInformation <;>
    cases hA : advanceOf cfg st p.newInformation <;>
      simp [processTurn, hC, hA, appendMessage, appendScratchpad_active] <;>
      split_ifs <;>
      simp [appendScratchpad_active]


theorem processTurn_index (cfg : ConvConfig) (st : ConvState) (m : String)
    (p : GwPayload) (f : String) :
    (processTurn cfg st m p f).1.currentQuestionIndex
      = if closeOf cfg st p.newInformation then totalOf cfg
        else if advanceOf cfg st p.newInformation then
          (if hasAnyNextOf cfg st then currentIndexOf cfg st + 1 else totalOf cfg)
        else st.currentQuestionIndex := by
  cases hC : closeOf cfg st p.newInformation <;>
    cases hA : advanceOf cfg st p.newInformation <;>
      simp [processTurn, hC, hA, appendMessage, appendScratchpad_index] <;>
      split_ifs <;>
      simp [appendScratchpad_index]

theorem processTurn_streak (cfg : ConvConfig) (st : ConvState) (m : String)
    (p : GwPayload) (f : String) :
    (processTurn cfg st m p f).1.consecutiveNoNew
      = if advanceOf cfg st p.newInformation || closeOf cfg st p.newInformation then 0
        else streakValue st p.newInformation := by
  cases hC : closeOf cfg st p.newInformation <;>
    cases hA : advanceOf cfg st p.newInformation <;>
      simp [processTurn, hC, hA, appendMessage, appendScratchpad_streak] <;>
      split_ifs <;>
      simp [appendScratchpad_streak]

theorem getAllQuestions_text_ne (raw : List RawQuestion) :
    ∀ q ∈ getAllQuestions raw, q.text ≠ "" := by
  induction raw with
  | nil => intro q hq; simp [getAllQuestions] at hq
  | cons e rest ih =>
      intro q hq
      cases e with
      | dict text qtype =>
          simp only [getAllQuestions] at hq
          split_ifs at hq with h1 h2 h3
          all_goals
            first
              | exact ih q hq
              | (rcases List.mem_cons.mp hq with h' | h'
                 · rw [h']; simp_all
                 · exact ih q h')
      | str s =>
          simp only [getAllQuestions] at hq
          split_ifs at hq with h1
          all_goals
            first
              | exact ih q hq
              | (rcases List.mem_cons.mp hq with h' | h'
                 · rw [h']; simp_all
                 · exact ih q h')

theorem getD_mem_of_lt {l : List Question} {i : Nat} (h : i < l.length) (d : Question) :
    l.getD i d ∈ l := by
  rw [List.getD_eq_getElem?_getD, List.getElem?_eq_getElem h]
  exact List.getElem_mem h

theorem currentQuestionOf_ne_empty (cfg : ConvConfig) (st : ConvState)
    (h : st.currentQuestionIndex < totalOf cfg) : currentQuestionOf cfg st ≠ "" := by
  have hidx : currentIndexOf cfg st = st.currentQuestionIndex := by
    unfold currentIndexOf; omega
  unfold currentQuestionOf
  rw [hidx, if_pos ⟨by unfold totalOf at h ⊢; omega, h⟩]
  exact getAllQuestions_text_ne _ _ (getD_mem_of_lt h _)

theorem currentQuestionTypeOf_discussion (cfg : ConvConfig) (st : ConvState)
    (hall : ∀ q ∈ getAllQuestions cfg.rawQuestions, q.qtype = "discussion")
    (h : st.currentQuestionIndex < totalOf cfg) :
    currentQuestionTypeOf cfg st = "discussion" := by
  have hidx : currentIndexOf cfg st = st.currentQuestionIndex := by
    unfold currentIndexOf; omega
  unfold currentQuestionTypeOf
  rw [hidx, if_pos ⟨by unfold totalOf at h ⊢; omega, h⟩]
  exact hall _ (getD_mem_of_lt h _)

theorem trigger_forces_advance_or_close (cfg : ConvConfig) (st : ConvState) (b : Bool)
    (hQ : currentQuestionOf cfg st ≠ "")
    (hT : currentQuestionTypeOf cfg st = "discussion")
    (hs : noNewLimitOf cfg ≤ streakValue st b) :
    (advanceOf cfg st b || closeOf cfg st b) = true := by
  have hTrig : noNewTriggerOf cfg st b = true := by
    simp [noNewTriggerOf, hQ, hs]
  unfold advanceOf closeOf
  rw [if_pos ⟨hQ, hT⟩, if_pos ⟨hQ, hT⟩, hTrig]
  cases hH : hasAnyNextOf cfg st <;> simp

theorem processTurn_preserves_inv (cfg : ConvConfig)
    (hall : ∀ q ∈ getAllQuestions cfg.rawQuestions, q.qtype = "discussion")
    (st : ConvState) (m : String) (p : GwPayload) (f : String)
    (hInv : st.active = true →
      st.currentQuestionIndex < totalOf cfg ∧ st.consecutiveNoNew < noNewLimitOf cfg) :
    (processTurn cfg st m p f).1.active = true →
      (processTurn cfg st m p f).1.currentQuestionIndex < totalOf cfg ∧
      (processTurn cfg st m p f).1.consecutiveNoNew < noNewLimitOf cfg := by
  intro hact'
  rw [processTurn_active] at hact'
  by_cases hC : closeOf cfg st p.newInformation = true
  · rw [if_pos hC] at hact'; exact absurd hact' (by simp)
  · have hC' : closeOf cfg st p.newInformation = false := by
      simpa using hC
    rw [if_neg (by simp [hC'])] at hact'
    obtain ⟨hidx, hstreak⟩ := hInv hact'
    rw [processTurn_index, processTurn_streak, hC']
    by_cases hA : advanceOf cfg st p.newInformation = true
    · have hH : hasAnyNextOf cfg st = true := by
        unfold advanceOf at hA
        by_cases hcond :
            currentQuestionOf cfg st ≠ "" ∧ currentQuestionTypeOf cfg st = "discussion"
        · rw [if_pos hcond] at hA
          simp only [Bool.or_eq_true, Bool.and_eq_true] at hA
          rcases hA with ⟨_, h⟩ | ⟨_, h⟩ <;> exact h
        · rw [if_neg hcond] at hA; exact absurd hA (by simp)
      have hHlt : currentIndexOf cfg st + 1 < totalOf cfg := of_decide_eq_true hH
      simp only [hA, hH, if_true, if_false, Bool.true_or]
      refine ⟨by simpa using hHlt, by unfold noNewLimitOf; omega⟩
    · have hA' : advanceOf cfg st p.newInformation = false := by simpa using hA
      simp only [hA', hC', if_false, Bool.false_or]
      refine ⟨hidx, ?_⟩
      by_contra hge
      push_neg at hge
      have hQ : currentQuestionOf cfg st ≠ "" := currentQuestionOf_ne_empty cfg st hidx
      have hT : currentQuestionTypeOf cfg st = "discussion" :=
        currentQuestionTypeOf_discussion cfg st hall hidx
      have := trigger_forces_advance_or_close cfg st p.newInformation hQ hT hge
      rw [hA', hC'] at this
      simp at this


theorem runTurns_inv (cfg : ConvConfig)
    (hall : ∀ q ∈ getAllQuestions cfg.rawQuestions, q.qtype = "discussion") :
    ∀ (inputs : List (String × GwPayload × String)) (st : ConvState),
    (st.active = true →
      st.currentQuestionIndex < totalOf cfg ∧ st.consecutiveNoNew < noNewLimitOf cfg) →
    ((runTurns cfg st inputs).active = true →
      (runTurns cfg st inputs).currentQuestionIndex < totalOf cfg ∧
      (runTurns cfg st inputs).consecutiveNoNew < noNewLimitOf cfg) := by
  intro inputs
  induction inputs with
  | nil => intro st h; exact h
  | cons x rest ih =>
      intro st h
      exact ih (processTurn cfg st x.1 x.2.1 x.2.2).1
        (processTurn_preserves_inv cfg hall st x.1 x.2.1 x.2.2 h)

/-- C5 (amended): over a nonempty plan consisting only of discussion
questions, in every state reachable by `processTurn` from a fresh
conversation the stored `noNewInfoStreak` stays strictly below (hence never
exceeds) `noNewInfoLimit` while `active=true`, and any turn whose computed
streak value reaches the limit moves the question index or closes the
conversation in that same turn.  (The claim as stated — over *all* plans,
including the empty one — is refuted by the counterexample.) -/
theorem no_new_streak_invariant (cfg : ConvConfig)
    (inputs : List (String × GwPayload × String))
    (hne : getAllQuestions cfg.rawQuestions ≠ [])
    (hall : ∀ q ∈ getAllQuestions cfg.rawQuestions, q.qtype = "discussion") :
    ((runTurns cfg freshConvState inputs).active = true →
      (runTurns cfg freshConvState inputs).consecutiveNoNew < noNewLimitOf cfg) ∧
    (∀ (m f : String) (p : GwPayload),
      (runTurns cfg freshConvState inputs).active = true →
      noNewLimitOf cfg ≤ streakValue (runTurns cfg freshConvState inputs) p.newInformation →
      (processTurn cfg (runTurns cfg freshConvState inputs) m p f).1.currentQuestionIndex
          ≠ (runTurns cfg freshConvState inputs).currentQuestionIndex ∨
        (processTurn cfg (runTurns cfg freshConvState inputs) m p f).1.active = false) := by
  have hfresh : freshConvState.active = true →
      freshConvState.currentQuestionIndex < totalOf cfg ∧
      freshConvState.consecutiveNoNew < noNewLimitOf cfg := by
    intro _
    constructor
    · show 0 < totalOf cfg
      unfold totalOf
      exact List.length_pos.mpr hne
    · show 0 < noNewLimitOf cfg
      unfold noNewLimitOf
      omega
  have hinv := runTurns_inv cfg hall inputs freshConvState hfresh
  set st := runTurns cfg freshConvState inputs with hst
  constructor
  · intro hact; exact (hinv hact).2
  · intro m f p hact hs
    obtain ⟨hidx, _⟩ := hinv hact
    have hQ : currentQuestionOf cfg st ≠ "" := currentQuestionOf_ne_empty cfg st hidx
    have hT : currentQuestionTypeOf cfg st = "discussion" :=
      currentQuestionTypeOf_discussion cfg st hall hidx
    have htrig := trigger_forces_advance_or_close cfg st p.newInformation hQ hT hs
    by_cases hC : closeOf cfg st p.newInformation = true
    · right
      rw [processTurn_active, if_pos hC]
    · have hC' : closeOf cfg st p.newInformation = false := by simpa using hC
      have hA : advanceOf cfg st p.newInformation = true := by
        rw [hC'] at htrig; simpa using htrig
      left
      have hH : hasAnyNextOf cfg st = true := by
        unfold advanceOf at hA
        by_cases hcond :
            currentQuestionOf cfg st ≠ "" ∧ currentQuestionTypeOf cfg st = "discussion"
        · rw [if_pos hcond] at hA
          simp only [Bool.or_eq_true, Bool.and_eq_true] at hA
          rcases hA with ⟨_, h⟩ | ⟨_, h⟩ <;> exact h
        · rw [if_neg hcond] at hA; exact absurd hA (by simp)
      rw [processTurn_index, hC', if_neg (by simp), if_pos hA, if_pos hH]
      have : currentIndexOf cfg st = st.currentQuestionIndex := by
        unfold currentIndexOf; omega
      omega

/-- Witness for the amended C5 theorem: one-question discussion plan,
no inputs yet (the fresh state), then a non-novel turn whose streak value 1
reaches the limit... here with `cfgOneQLimit2` (limit 2) we witness after one
non-novel turn. -/
theorem no_new_streak_invariant_witness :
    ((runTurns cfgOneQLimit2 freshConvState [("m1", repeatPayload, "")]).active = true →
      (runTurns cfgOneQLimit2 freshConvState
          [("m1", repeatPayload, "")]).consecutiveNoNew < noNewLimitOf cfgOneQLimit2) ∧
    ((processTurn cfgOneQLimit2
        (runTurns cfgOneQLimit2 freshConvState [("m1", repeatPayload, "")])
        "m2" repeatPayload "").1.currentQuestionIndex
          ≠ (runTurns cfgOneQLimit2 freshConvState
              [("m1", repeatPayload, "")]).currentQuestionIndex ∨
      (processTurn cfgOneQLimit2
          (runTurns cfgOneQLimit2 freshConvState [("m1", repeatPayload, "")])
          "m2" repeatPayload "").1.active = false) :=
  ⟨(no_new_streak_invariant cfgOneQLimit2 [("m1", repeatPayload, "")]
      (by decide) (by decide)).1,
   (no_new_streak_invariant cfgOneQLimit2 [("m1", repeatPayload, "")]
      (by decide) (by decide)).2 "m2" "" repeatPayload (by decide) (by decide)⟩

/-- C5 counterexample: with the empty plan (open-ended mode, included by the
claim's quantification) and `noNewInfoLimit=1`, the first non-novel turn
brings the stored streak to the limit with no transition and no close, and
the second non-novel turn pushes it strictly past the limit while the
conversation is still active. -/
theorem empty_plan_streak_exceeds_limit_cex :
    (processTurn cfgEmptyPlan freshConvState "m1" repeatPayload "").1.active = true ∧
    (processTurn cfgEmptyPlan freshConvState "m1" repeatPayload "").1.consecutiveNoNew
      = noNewLimitOf cfgEmptyPlan ∧
    (processTurn cfgEmptyPlan freshConvState "m1" repeatPayload "").1.currentQuestionIndex
      = freshConvState.currentQuestionIndex ∧
    (processTurn cfgEmptyPlan
        (processTurn cfgEmptyPlan freshConvState "m1" repeatPayload "").1
        "m2" repeatPayload "").1.active = true ∧
    noNewLimitOf cfgEmptyPlan <
      (processTurn cfgEmptyPlan
          (processTurn cfgEmptyPlan freshConvState "m1" repeatPayload "").1
          "m2" repeatPayload "").1.consecutiveNoNew := by
  decide


/-! #### Debate orchestrator lemmas (C1, C10) -/

theorem getAgentOpinionE_total (gw : List ChatMsg → String) (persona question : String)
    (priors : List AgentOpinion) (ui : String) (r : Nat) :
    getAgentOpinionE (totalGw gw) persona question priors ui r
      = some (agentOpinionTotal gw persona question priors ui r) := by
  unfold getAgentOpinionE generateTerseSummaryE totalGw agentOpinionTotal
  by_cases h : gw (buildOpinionMessages persona question priors ui r) = "" <;> simp [h]

theorem runDeliberationE_empty (gwE : List ChatMsg → Option String) (s : DebateSession)
    (h : getQuestionSequence s.objectiveQuestions = [] ∨ getPersonas s.personas = []) :
    runDeliberationE gwE s = Except.ok ({ transcript := [], completed := true }, []) := by
  have hcond : (getQuestionSequence s.objectiveQuestions).isEmpty
      ∨ (getPersonas s.personas).isEmpty := by
    rcases h with h | h <;> simp [h]
  simp only [runDeliberationE]
  rw [if_pos hcond]

/-- C10: with an empty (cleaned) question list or an empty persona list,
`run_deliberation` returns immediately: empty transcript, `completed=true`,
an empty opinion-call log — and the whole run is independent of the gateway
oracle, so no gateway call is ever made. -/
theorem empty_session_short_circuits (gw : List ChatMsg → String) (s : DebateSession)
    (h : getQuestionSequence s.objectiveQuestions = [] ∨ getPersonas s.personas = []) :
    runDeliberation gw s = ({ transcript := [], completed := true }, []) ∧
    ∀ gwE gwE' : List ChatMsg → Option String,
      runDeliberationE gwE s = runDeliberationE gwE' s := by
  constructor
  · unfold runDeliberation
    rw [runDeliberationE_empty (totalGw gw) s h]
  · intro gwE gwE'
    rw [runDeliberationE_empty gwE s h, runDeliberationE_empty gwE' s h]

/-- Witness for C10 at a session with no questions. -/
theorem empty_session_short_circuits_witness :
    runDeliberation gwMarker sessNoQuestions = ({ transcript := [], completed := true }, []) :=
  (empty_session_short_circuits gwMarker sessNoQuestions (Or.inl rfl)).1


theorem runRound1E_rounds (gwE : List ChatMsg → Option String) (ui : String)
    (qIdx : Nat) (question : String) :
    ∀ (agents : List (Nat × String)) (acc : List AgentOpinion),
    ∀ t ∈ r1Turns (runRound1E gwE ui qIdx question agents acc), t.round = 1 := by
  intro agents
  induction agents with
  | nil =>
      intro acc t ht
      simp only [runRound1E, r1Turns] at ht
      exact absurd ht (List.not_mem_nil t)
  | cons a rest ih =>
      intro acc t ht
      obtain ⟨i, p⟩ := a
      cases hop : getAgentOpinionE gwE p question acc ui 1 with
      | none =>
          simp only [runRound1E, hop, r1Turns] at ht
          exact absurd ht (List.not_mem_nil t)
      | some op =>
          cases hrec : runRound1E gwE ui qIdx question rest (acc ++ [op]) with
          | error ts =>
              simp only [runRound1E, hop, hrec, r1Turns] at ht
              rcases List.mem_cons.mp ht with h | h
              · rw [h]
              · have := ih (acc ++ [op]) t (by rw [hrec]; exact h)
                exact this
          | ok res =>
              obtain ⟨ops, ts, cs⟩ := res
              simp only [runRound1E, hop, hrec, r1Turns] at ht
              rcases List.mem_cons.mp ht with h | h
              · rw [h]
              · have := ih (acc ++ [op]) t (by rw [hrec]; exact h)
                exact this

theorem runRound2E_rounds (gwE : List ChatMsg → Option String) (ui : String)
    (qIdx : Nat) (question : String) (personas : List String)
    (round1Opinions : List AgentOpinion) :
    ∀ (idxs : List Nat),
    ∀ t ∈ r2Turns (runRound2E gwE ui qIdx question personas round1Opinions idxs),
      t.round = 2 := by
  intro idxs
  induction idxs with
  | nil =>
      intro t ht
      simp only [runRound2E, r2Turns] at ht
      exact absurd ht (List.not_mem_nil t)
  | cons i rest ih =>
      intro t ht
      cases hop : getAgentOpinionE gwE (personas.getD i "") question
          ((rotatingSequence personas.length i).map
            (fun j => round1Opinions.getD j default)) ui 2 with
      | none =>
          simp only [runRound2E, hop, r2Turns] at ht
          exact absurd ht (List.not_mem_nil t)
      | some op =>
          cases hrec : runRound2E gwE ui qIdx question personas round1Opinions rest with
          | error ts =>
              simp only [runRound2E, hop, hrec, r2Turns] at ht
              rcases List.mem_cons.mp ht with h | h
              · rw [h]
              · have := ih t (by rw [hrec]; exact h)
                exact this
          | ok res =>
              obtain ⟨ts, cs⟩ := res
              simp only [runRound2E, hop, hrec, r2Turns] at ht
              rcases List.mem_cons.mp ht with h | h
              · rw [h]
              · have := ih t (by rw [hrec]; exact h)
                exact this

theorem runQuestionsE_rounds (gwE : List ChatMsg → Option String) (ui : String)
    (personas : List String) :
    ∀ (qpairs : List (Nat × String)),
    ∀ t ∈ r2Turns (runQuestionsE gwE ui personas qpairs),
      t.round = 1 ∨ t.round = 2 := by
  intro qpairs
  induction qpairs with
  | nil =>
      intro t ht
      simp only [runQuestionsE, r2Turns] at ht
      exact absurd ht (List.not_mem_nil t)
  | cons a rest ih =>
      intro t ht
      obtain ⟨qIdx, question⟩ := a
      cases h1 : runRound1E gwE ui qIdx question personas.enum [] with
      | error ts =>
          simp only [runQuestionsE, h1, r2Turns] at ht
          exact Or.inl (runRound1E_rounds gwE ui qIdx question personas.enum [] t
            (by rw [h1]; exact ht))
      | ok res1 =>
          obtain ⟨ops, ts1, cs1⟩ := res1
          cases h2 : runRound2E gwE ui qIdx question personas ops
              (List.range personas.length) with
          | error ts2 =>
              simp only [runQuestionsE, h1, h2, r2Turns] at ht
              rcases List.mem_append.mp ht with h | h
              · exact Or.inl (runRound1E_rounds gwE ui qIdx question personas.enum [] t
                  (by rw [h1]; exact h))
              · exact Or.inr (runRound2E_rounds gwE ui qIdx question personas ops _ t
                  (by rw [h2]; exact h))
          | ok res2 =>
              obtain ⟨ts2, cs2⟩ := res2
              cases h3 : runQuestionsE gwE ui personas rest with
              | error ts' =>
                  simp only [runQuestionsE, h1, h2, h3, r2Turns] at ht
                  rcases List.mem_append.mp ht with h | h
                  · rcases List.mem_append.mp h with h' | h'
                    · exact Or.inl (runRound1E_rounds gwE ui qIdx question personas.enum [] t
                        (by rw [h1]; exact h'))
                    · exact Or.inr (runRound2E_rounds gwE ui qIdx question personas ops _ t
                        (by rw [h2]; exact h'))
                  · exact ih t (by rw [h3]; exact h)
              | ok res =>
                  obtain ⟨ts', cs'⟩ := res
                  simp only [runQuestionsE, h1, h2, h3, r2Turns] at ht
                  rcases List.mem_append.mp ht with h | h
                  · rcases List.mem_append.mp h with h' | h'
                    · exact Or.inl (runRound1E_rounds gwE ui qIdx question personas.enum [] t
                        (by rw [h1]; exact h'))
                    · exact Or.inr (runRound2E_rounds gwE ui qIdx question personas ops _ t
                        (by rw [h2]; exact h'))
                  · exact ih t (by rw [h3]; exact h)


theorem runDeliberationE_ok_completed (gwE : List ChatMsg → Option String)
    (s : DebateSession) (run : DebateRun) (cs : List OpinionCall)
    (h : runDeliberationE gwE s = Except.ok (run, cs)) : run.completed = true := by
  simp only [runDeliberationE] at h
  split_ifs at h with hcond
  · injection h with h'
    injection h' with h1 h2
    rw [← h1]
  · cases hq : runQuestionsE gwE s.userInstructions (getPersonas s.personas)
        (getQuestionSequence s.objectiveQuestions).enum with
    | error ts => rw [hq] at h; exact Except.noConfusion h
    | ok res =>
        obtain ⟨ts, cs'⟩ := res
        rw [hq] at h
        injection h with h'
        injection h' with h1 h2
        rw [← h1]

theorem runDeliberationE_error_rounds (gwE : List ChatMsg → Option String)
    (s : DebateSession) (ts : List DebateTurn)
    (h : runDeliberationE gwE s = Except.error ts) :
    ∀ t ∈ ts, t.round = 1 ∨ t.round = 2 := by
  simp only [runDeliberationE] at h
  split_ifs at h with hcond
  cases hq : runQuestionsE gwE s.userInstructions (getPersonas s.personas)
      (getQuestionSequence s.objectiveQuestions).enum with
  | error ts' =>
      rw [hq] at h
      injection h with h'
      intro t ht
      exact runQuestionsE_rounds gwE s.userInstructions (getPersonas s.personas)
        (getQuestionSequence s.objectiveQuestions).enum t
        (by rw [hq, r2Turns, h']; exact ht)
  | ok res => rw [hq] at h; exact Except.noConfusion h

/-- C1 (spec-modelled wrapper): `startDeliberation` always hands back a run
with `completed=true`, and whenever the underlying deliberation aborts on a
gateway exception with partial transcript `ts`, the resulting run is exactly
that partial transcript plus one synthetic error turn — and that synthetic
turn is the only one in the transcript (every protocol turn carries round 1
or 2, the synthetic turn round 0). -/
theorem startDeliberation_failure_semantics (gwE : List ChatMsg → Option String)
    (s : DebateSession) :
    (startDeliberation gwE s).completed = true ∧
    (∀ ts, runDeliberationE gwE s = Except.error ts →
      (startDeliberation gwE s).transcript = ts ++ [syntheticErrorTurn] ∧
      ((startDeliberation gwE s).transcript.filter
          (fun t => t.round = 0)).length = 1) := by
  constructor
  · unfold startDeliberation
    cases h : runDeliberationE gwE s with
    | ok res =>
        obtain ⟨run, cs⟩ := res
        exact runDeliberationE_ok_completed gwE s run cs h
    | error ts => rfl
  · intro ts h
    have htr : (startDeliberation gwE s).transcript = ts ++ [syntheticErrorTurn] := by
      unfold startDeliberation
      rw [h]
    refine ⟨htr, ?_⟩
    rw [htr, List.filter_append]
    have h1 : ts.filter (fun t => t.round = 0) = [] := by
      rw [List.filter_eq_nil]
      intro t ht
      rcases runDeliberationE_error_rounds gwE s ts h t ht with h' | h' <;> simp [h']
    rw [h1]
    rfl

/-- Witness for C1: a gateway whose first call already raises, a session with
one question and one persona; the underlying run fails with the empty partial
transcript and the wrapper returns exactly the synthetic turn. -/
theorem startDeliberation_failure_semantics_witness :
    (startDeliberation gwAlwaysRaises sessOnePersona).completed = true ∧
    (startDeliberation gwAlwaysRaises sessOnePersona).transcript
      = [] ++ [syntheticErrorTurn] :=
  ⟨(startDeliberation_failure_semantics gwAlwaysRaises sessOnePersona).1,
   ((startDeliberation_failure_semantics gwAlwaysRaises sessOnePersona).2 [] (by rfl)).1⟩


/-! #### Round-context lemmas (C2, C4) -/

theorem enumFrom_map_snd (n : Nat) (l : List String) :
    (List.enumFrom n l).map Prod.snd = l := by
  induction l generalizing n with
  | nil => rfl
  | cons x xs ih => simp [List.enumFrom, ih]

theorem enum_map_snd (l : List String) : l.enum.map Prod.snd = l :=
  enumFrom_map_snd 0 l

theorem enum_getD_fst (l : List String) (k : Nat) (h : k < l.length) (d : Nat × String) :
    (l.enum.getD k d).1 = k := by
  rw [List.getD_eq_getElem?_getD,
    List.getElem?_eq_getElem (by simpa [List.enum_length] using h)]
  simp [List.getElem_enum]

theorem runRound1E_total_spec (gw : List ChatMsg → String) (ui : String)
    (qIdx : Nat) (question : String) :
    ∀ (agents : List (Nat × String)) (acc : List AgentOpinion),
    ∃ ops ts cs,
      runRound1E (totalGw gw) ui qIdx question agents acc = Except.ok (ops, ts, cs) ∧
      ops.map (fun o => o.persona) = agents.map Prod.snd ∧
      cs.length = agents.length ∧
      ts.map (fun t => (t.questionIndex, t.round, t.agentIndex))
        = agents.map (fun a => (qIdx, 1, a.1)) ∧
      ∀ k (hk : k < cs.length),
        (cs.get ⟨k, hk⟩).priorOpinions = acc ++ ops.take k ∧
        (cs.get ⟨k, hk⟩).agentIndex = (agents.getD k (0, "")).1 ∧
        (cs.get ⟨k, hk⟩).round = 1 := by
  intro agents
  induction agents with
  | nil =>
      intro acc
      exact ⟨[], [], [], rfl, rfl, rfl, rfl, fun k hk => absurd hk (by simp)⟩
  | cons a rest ih =>
      intro acc
      obtain ⟨i, p⟩ := a
      obtain ⟨ops, ts, cs, hrec, hmap, hlen, htmap, hspec⟩ :=
        ih (acc ++ [agentOpinionTotal gw p question acc ui 1])
      refine ⟨agentOpinionTotal gw p question acc ui 1 :: ops,
        ⟨qIdx, question, 1, i, p,
          (agentOpinionTotal gw p question acc ui 1).opinion,
          (agentOpinionTotal gw p question acc ui 1).summary⟩ :: ts,
        ⟨qIdx, 1, i, acc, buildOpinionMessages p question acc ui 1⟩ :: cs,
        ?_, ?_, ?_, ?_, ?_⟩
      · simp only [runRound1E, getAgentOpinionE_total, hrec]
      · simp only [List.map_cons, hmap]
        rfl
      · simp [hlen]
      · simp only [List.map_cons, htmap]
      · intro k hk
        cases k with
        | zero => exact ⟨by simp, by simp, rfl⟩
        | succ k =>
            have hk' : k < cs.length := by simpa using hk
            obtain ⟨h1, h2, h3⟩ := hspec k hk'
            refine ⟨?_, by simpa using h2, h3⟩
            simp only [List.get_cons_succ, h1, List.take_succ_cons, List.append_assoc,
              List.singleton_append]


theorem runRound2E_total_spec (gw : List ChatMsg → String) (ui : String)
    (qIdx : Nat) (question : String) (personas : List String)
    (round1ops : List AgentOpinion) :
    ∀ (idxs : List Nat),
    ∃ ts cs,
      runRound2E (totalGw gw) ui qIdx question personas round1ops idxs
        = Except.ok (ts, cs) ∧
      ts.map (fun t => (t.questionIndex, t.round, t.agentIndex))
        = idxs.map (fun i => (qIdx, 2, i)) ∧
      ∀ c ∈ cs, c.round = 2 ∧
        c.priorOpinions = (rotatingSequence personas.length c.agentIndex).map
          (fun j => round1ops.getD j default) := by
  intro idxs
  induction idxs with
  | nil => exact ⟨[], [], rfl, rfl, fun c hc => absurd hc (List.not_mem_nil c)⟩
  | cons i rest ih =>
      obtain ⟨ts, cs, hrec, htmap, hspec⟩ := ih
      refine ⟨⟨qIdx, question, 2, i, personas.getD i "",
          (agentOpinionTotal gw (personas.getD i "") question
            ((rotatingSequence personas.length i).map
              (fun j => round1ops.getD j default)) ui 2).opinion,
          (agentOpinionTotal gw (personas.getD i "") question
            ((rotatingSequence personas.length i).map
              (fun j => round1ops.getD j default)) ui 2).summary⟩ :: ts,
        ⟨qIdx, 2, i,
          (rotatingSequence personas.length i).map (fun j => round1ops.getD j default),
          buildOpinionMessages (personas.getD i "") question
            ((rotatingSequence personas.length i).map
              (fun j => round1ops.getD j default)) ui 2⟩ :: cs,
        ?_, ?_, ?_⟩
      · simp only [runRound2E, getAgentOpinionE_total, hrec]
      · simp only [List.map_cons, htmap]
      · intro c hc
        rcases List.mem_cons.mp hc with h | h
        · rw [h]
          exact ⟨rfl, rfl⟩
        · exact hspec c h


theorem runRound1E_total_calls (gw : List ChatMsg → String) (ui : String)
    (qIdx : Nat) (question : String) (personas : List String) :
    ∃ ops ts cs,
      runRound1E (totalGw gw) ui qIdx question personas.enum [] = Except.ok (ops, ts, cs) ∧
      ts.map (fun t => (t.questionIndex, t.round, t.agentIndex))
        = personas.enum.map (fun a => (qIdx, 1, a.1)) ∧
      ∀ c ∈ cs, c.round = 1 ∧
        c.priorOpinions.map (fun o => o.persona) = personas.take c.agentIndex ∧
        c.agentIndex < personas.length := by
  obtain ⟨ops, ts, cs, hrun, hmap, hlen, htmap, hspec⟩ :=
    runRound1E_total_spec gw ui qIdx question personas.enum []
  refine ⟨ops, ts, cs, hrun, htmap, ?_⟩
  intro c hc
  obtain ⟨⟨k, hk⟩, hkc⟩ := List.mem_iff_get.mp hc
  obtain ⟨h1, h2, h3⟩ := hspec k hk
  rw [← hkc]
  have hkp : k < personas.length := by
    rw [hlen, List.enum_length] at hk
    exact hk
  have hidx : (cs.get ⟨k, hk⟩).agentIndex = k := by
    rw [h2, enum_getD_fst personas k hkp]
  refine ⟨h3, ?_, by rw [hidx]; exact hkp⟩
  rw [hidx, h1, List.nil_append, List.map_take, hmap, enum_map_snd]

theorem runQuestionsE_total_spec (gw : List ChatMsg → String) (ui : String)
    (personas : List String) :
    ∀ (qpairs : List (Nat × String)),
    ∃ ts cs,
      runQuestionsE (totalGw gw) ui personas qpairs = Except.ok (ts, cs) ∧
      ts.map (fun t => (t.questionIndex, t.round, t.agentIndex))
        = qpairs.bind (fun iq =>
            personas.enum.map (fun a => (iq.1, 1, a.1))
              ++ (List.range personas.length).map (fun i => (iq.1, 2, i))) ∧
      ∀ c ∈ cs,
        (c.round = 1 ∨ c.round = 2) ∧
        (c.round = 1 → c.priorOpinions.map (fun o => o.persona)
            = personas.take c.agentIndex ∧ c.agentIndex < personas.length) ∧
        (c.round = 2 → ∃ ops, c.priorOpinions
            = (rotatingSequence personas.length c.agentIndex).map
                (fun j => List.getD ops j default)) := by
  intro qpairs
  induction qpairs with
  | nil => exact ⟨[], [], rfl, rfl, fun c hc => absurd hc (List.not_mem_nil c)⟩
  | cons a rest ih =>
      obtain ⟨qIdx, question⟩ := a
      obtain ⟨ops1, ts1, cs1, h1, htmap1, hcs1⟩ :=
        runRound1E_total_calls gw ui qIdx question personas
      obtain ⟨ts2, cs2, h2, htmap2, hcs2⟩ :=
        runRound2E_total_spec gw ui qIdx question personas ops1
          (List.range personas.length)
      obtain ⟨ts', cs', h3, htmap3, hcs3⟩ := ih
      refine ⟨ts1 ++ ts2 ++ ts', cs1 ++ cs2 ++ cs', ?_, ?_, ?_⟩
      · simp only [runQuestionsE, h1, h2, h3]
      · simp only [List.map_append, htmap1, htmap2, htmap3, List.cons_bind,
          List.append_assoc]
      · intro c hc
        rcases List.mem_append.mp hc with h | h
        · rcases List.mem_append.mp h with h' | h'
          · obtain ⟨hr, hprior, hlt⟩ := hcs1 c h'
            refine ⟨Or.inl hr, fun _ => ⟨hprior, hlt⟩, fun h2' => ?_⟩
            rw [hr] at h2'
            exact absurd h2' (by norm_num)
          · obtain ⟨hr, hprior⟩ := hcs2 c h'
            refine ⟨Or.inr hr, fun h1' => ?_, fun _ => ⟨ops1, hprior⟩⟩
            rw [hr] at h1'
            exact absurd h1' (by norm_num)
        · exact hcs3 c h

theorem runDeliberation_nonempty_eq (gw : List ChatMsg → String) (s : DebateSession)
    (h : ¬((getQuestionSequence s.objectiveQuestions).isEmpty = true
        ∨ (getPersonas s.personas).isEmpty = true))
    (ts : List DebateTurn) (cs : List OpinionCall)
    (hq : runQuestionsE (totalGw gw) s.userInstructions (getPersonas s.personas)
        (getQuestionSequence s.objectiveQuestions).enum = Except.ok (ts, cs)) :
    runDeliberation gw s = ({ transcript := ts, completed := true }, cs) := by
  unfold runDeliberation
  simp only [runDeliberationE]
  rw [if_neg h, hq]

/-- C2 (amended): the round-1 gateway call for the persona at index `i` is
built from that persona's own context *plus the committed opinions of the
personas before it*: the `prior_opinions` supplied to the `i`-th initial call
are exactly the round-1 opinions of personas `0..i-1` (in order); only the
first persona's initial call is persona-only. -/
theorem round1_context_is_cascade_of_prior_summaries (gw : List ChatMsg → String)
    (s : DebateSession) :
    ∀ c ∈ (runDeliberation gw s).2, c.round = 1 →
      c.priorOpinions.map (fun o => o.persona)
        = (getPersonas s.personas).take c.agentIndex := by
  intro c hc hr
  by_cases hcond : (getQuestionSequence s.objectiveQuestions).isEmpty = true
      ∨ (getPersonas s.personas).isEmpty = true
  · have hempty : getQuestionSequence s.objectiveQuestions = []
        ∨ getPersonas s.personas = [] := by
      rcases hcond with h | h
      · exact Or.inl (List.isEmpty_iff.mp h)
      · exact Or.inr (List.isEmpty_iff.mp h)
    rw [(empty_session_short_circuits gw s hempty).1] at hc
    exact absurd hc (List.not_mem_nil c)
  · obtain ⟨ts, cs, hrun, _, hcs⟩ :=
      runQuestionsE_total_spec gw s.userInstructions (getPersonas s.personas)
        (getQuestionSequence s.objectiveQuestions).enum
    rw [runDeliberation_nonempty_eq gw s hcond ts cs hrun] at hc
    exact ((hcs c hc).2.1 hr).1

set_option maxRecDepth 8192 in
/-- Witness for the amended C2: in the two-persona run, the second round-1
call (log entry 1) carries exactly the first persona's opinion as context. -/
theorem round1_context_is_cascade_witness :
    ((runDeliberation gwMarker sessTwoPersonas).2.getD 1 default).priorOpinions.map
        (fun o => o.persona)
      = (getPersonas sessTwoPersonas.personas).take
          ((runDeliberation gwMarker sessTwoPersonas).2.getD 1 default).agentIndex :=
  round1_context_is_cascade_of_prior_summaries gwMarker sessTwoPersonas _
    (by decide) (by decide)

/-- C4 (amended): a debate run with exactly one persona still executes the
second round — per question the transcript is one round-1 turn followed by
one round-2 turn (both agent index 0), the run ends `completed=true`, and
every round-2 call is made with an empty peer-opinion context (the rotating
sequence over one agent is empty). -/
theorem single_persona_round2_empty_context (gw : List ChatMsg → String)
    (s : DebateSession) (p : String) (hp : getPersonas s.personas = [p])
    (hq : getQuestionSequence s.objectiveQuestions ≠ []) :
    (runDeliberation gw s).1.completed = true ∧
    (runDeliberation gw s).1.transcript.map
        (fun t => (t.questionIndex, t.round, t.agentIndex))
      = (getQuestionSequence s.objectiveQuestions).enum.bind
          (fun iq => [(iq.1, 1, 0), (iq.1, 2, 0)]) ∧
    ∀ c ∈ (runDeliberation gw s).2, c.round = 2 → c.priorOpinions = [] := by
  have hcond : ¬((getQuestionSequence s.objectiveQuestions).isEmpty = true
      ∨ (getPersonas s.personas).isEmpty = true) := by
    simp [hp, List.isEmpty_iff, hq]
  obtain ⟨ts, cs, hrun, htmap, hcs⟩ :=
    runQuestionsE_total_spec gw s.userInstructions (getPersonas s.personas)
      (getQuestionSequence s.objectiveQuestions).enum
  have heq := runDeliberation_nonempty_eq gw s hcond ts cs hrun
  rw [heq]
  refine ⟨rfl, ?_, ?_⟩
  · rw [hp] at htmap
    rw [htmap]
    simp only [show ∀ iq : Nat × String,
        (([p].enum.map (fun a => (iq.1, 1, a.1)))
          ++ (List.range ([p] : List String).length).map (fun i => (iq.1, 2, i)))
        = [(iq.1, 1, 0), (iq.1, 2, 0)] from fun iq => rfl]
  · intro c hc hr
    obtain ⟨ops, hops⟩ := (hcs c hc).2.2 hr
    rw [hops, hp]
    simp [rotatingSequence, List.range']

/-- Witness for the amended C4 at the one-persona, one-question session. -/
theorem single_persona_round2_empty_context_witness :
    (runDeliberation gwMarker sessOnePersona).1.completed = true ∧
    (runDeliberation gwMarker sessOnePersona).1.transcript.map
        (fun t => (t.questionIndex, t.round, t.agentIndex))
      = (getQuestionSequence sessOnePersona.objectiveQuestions).enum.bind
          (fun iq => [(iq.1, 1, 0), (iq.1, 2, 0)]) :=
  ⟨(single_persona_round2_empty_context gwMarker sessOnePersona "P"
      (by decide) (by decide)).1,
   (single_persona_round2_empty_context gwMarker sessOnePersona "P"
      (by decide) (by decide)).2.1⟩


/-! #### Three-persona protocol (C7) -/

theorem abc_run_eq (gw : List ChatMsg → String) (ui : String) :
    runDeliberation gw (sessABC ui)
      = ({ transcript := abcTurns gw ui, completed := true }, abcCalls gw ui) := by
  have h1 : runRound1E (totalGw gw) ui 0 "Q0"
      ((["A", "B", "C"] : List String).enum) []
      = Except.ok ([abcOp0 gw ui, abcOp1 gw ui, abcOp2 gw ui],
          (abcTurns gw ui).take 3, (abcCalls gw ui).take 3) := by
    rw [show (["A", "B", "C"] : List String).enum
        = [(0, "A"), (1, "B"), (2, "C")] from rfl]
    simp only [runRound1E, getAgentOpinionE_total, List.nil_append,
      List.singleton_append]
    rfl
  have h2 : runRound2E (totalGw gw) ui 0 "Q0" ["A", "B", "C"]
      [abcOp0 gw ui, abcOp1 gw ui, abcOp2 gw ui] [0, 1, 2]
      = Except.ok ((abcTurns gw ui).drop 3, (abcCalls gw ui).drop 3) := by
    simp only [runRound2E, getAgentOpinionE_total]
    rfl
  unfold runDeliberation
  simp only [runDeliberationE]
  rw [show getQuestionSequence (sessABC ui).objectiveQuestions = ["Q0"] from rfl,
      show getPersonas (sessABC ui).personas = ["A", "B", "C"] from rfl,
      if_neg (by decide),
      show (["Q0"] : List String).enum = [(0, "Q0")] from rfl]
  simp only [runQuestionsE, show (sessABC ui).userInstructions = ui from rfl,
    show List.range (["A", "B", "C"] : List String).length = [0, 1, 2] from rfl, h1, h2]
  rfl


/-- C7: for personas `[A, B, C]` and the single question `Q0`, under any
gateway: the transcript is exactly the 3 initial (round-1) turns for agents
0,1,2 followed by exactly the 3 critique (round-2) turns for agents 0,1,2,
in that order; the gateway-call order matches (all initial calls complete
before any critique call starts); each critique call's supplied peer context
excludes the speaker's own committed initial opinion and contains exactly
the other two personas' initial opinions, in rotating order. -/
theorem three_persona_protocol_order_and_rotation (gw : List ChatMsg → String)
    (ui : String) :
    (runDeliberation gw (sessABC ui)).1.completed = true ∧
    (runDeliberation gw (sessABC ui)).1.transcript.map (fun t => (t.round, t.agentIndex))
      = [(1, 0), (1, 1), (1, 2), (2, 0), (2, 1), (2, 2)] ∧
    (runDeliberation gw (sessABC ui)).2.map (fun c => (c.round, c.agentIndex))
      = [(1, 0), (1, 1), (1, 2), (2, 0), (2, 1), (2, 2)] ∧
    ((runDeliberation gw (sessABC ui)).2.getD 3 default).priorOpinions.map
        (fun o => o.persona) = ["B", "C"] ∧
    ((runDeliberation gw (sessABC ui)).2.getD 4 default).priorOpinions.map
        (fun o => o.persona) = ["C", "A"] ∧
    ((runDeliberation gw (sessABC ui)).2.getD 5 default).priorOpinions.map
        (fun o => o.persona) = ["A", "B"] ∧
    ((runDeliberation gw (sessABC ui)).2.getD 3 default).priorOpinions.map
        (fun o => o.opinion)
      = [((runDeliberation gw (sessABC ui)).1.transcript.getD 1 default).opinion,
         ((runDeliberation gw (sessABC ui)).1.transcript.getD 2 default).opinion] ∧
    ((runDeliberation gw (sessABC ui)).2.getD 4 default).priorOpinions.map
        (fun o => o.opinion)
      = [((runDeliberation gw (sessABC ui)).1.transcript.getD 2 default).opinion,
         ((runDeliberation gw (sessABC ui)).1.transcript.getD 0 default).opinion] ∧
    ((runDeliberation gw (sessABC ui)).2.getD 5 default).priorOpinions.map
        (fun o => o.opinion)
      = [((runDeliberation gw (sessABC ui)).1.transcript.getD 0 default).opinion,
         ((runDeliberation gw (sessABC ui)).1.transcript.getD 1 default).opinion] := by
  rw [abc_run_eq gw ui]
  exact ⟨rfl, rfl, rfl, rfl, rfl, rfl, rfl, rfl, rfl⟩


end Deliberation
